import Mathlib

/-!
Shallow embedding of the `qemu-rs` crate (quadrifoglio/qemu-rs) and proofs
about it.  Each Rust item is translated into a Lean definition that keeps the
source's structure: pure argument-formatting code becomes pure functions on
`String`/`List String`, fallible code returns `Except`, and the effectful
parts of process spawning are made explicit by passing in the outcome the
operating system produced (spawn success/failure, the single post-spawn poll,
the bytes read from the captured streams).

Sources embedded here:
  * `src/error.rs`            — `InitError`
  * `src/machine.rs`          — `Processors`, `Memory` and their
                                `IntoArguments` impls
  * `src/machine/mod.rs`      — `CpuSetup`, `MemorySetup`, `DriveMedia`,
                                `Drive`, `TapInterface`, `Machine`,
                                `MachineStatus`, `Machine::start`
  * `src/lib.rs`              — `Builder::new`, `Builder::start`
  * `src/image/mod.rs`        — `Format`, `Image`, `Image::write`
-/

namespace Qemu

/-- Error type of `src/error.rs` (`InitError`). -/
inductive InitError
  | ExecutableNotFound (exec : String)
  | InvalidConfig (msg : String)
  deriving DecidableEq, Repr

/-- Modelled from the spec: the crate-root `Error` enum is used by
`src/machine/mod.rs` and `src/image/mod.rs` (`use super::{Error, Result}`)
but its declaration is not among the source files.  Its variants are
reconstructed from the spec's error taxonomy (§7) and from the use sites:
`Error::Io(err)`, `Error::Runtime(msg)`, `Error::InvalidArgument(msg)`,
`Error::Other(msg)`.  OS errors are carried as their message strings. -/
inductive Error
  | Io (err : String)
  | Runtime (msg : String)
  | InvalidArgument (msg : String)
  | Other (msg : String)
  deriving DecidableEq, Repr

/-! ## `src/machine.rs` — `Processors` and `Memory` -/

/-- The `Processors` struct of `src/machine.rs`.  The Rust fields are
`Option<u8>`; the numbers are represented as `Nat` (formatting, the only
operation performed on them, agrees with Rust for all `u8` values). -/
structure Processors where
  ncpus : Option Nat
  cores : Option Nat
  threads : Option Nat
  sockets : Option Nat
  maxcpus : Option Nat
  deriving DecidableEq, Repr

/-- `Processors::new(n)`. -/
def Processors.new (n : Nat) : Processors :=
  ⟨some n, none, none, none, none⟩

/-- `Processors::with(cores, threads, sockets)` (`with` is a Lean keyword,
hence the primed name).  Fails with `InvalidConfig` when all three arguments
are `None`. -/
def Processors.with' (cores threads sockets : Option Nat) :
    Except InitError Processors :=
  if cores.isNone && threads.isNone && sockets.isNone then
    .error (.InvalidConfig "cpu cores, threads, or sockets must be defined")
  else
    .ok ⟨none, cores, threads, sockets, none⟩

/-- `Processors::set_max_cpus(n)`. -/
def Processors.set_max_cpus (p : Processors) (n : Nat) : Processors :=
  { p with maxcpus := some n }

/-- The contents of the `HashMap` built by
`<Processors as IntoArguments>::into_arguments`, listed in insertion order.
All inserted keys (`cpus` / `cores`,`threads`,`sockets` / `maxcpus`) are
distinct, so the map holds exactly these pairs; only its *iteration* order is
unspecified, which is modelled separately by `IsIterationOrder`. -/
def Processors.opts (p : Processors) : List (String × String) :=
  (match p.ncpus with
   | some n => [("cpus", toString n)]
   | none =>
       (match p.cores with
        | some c => [("cores", toString c)]
        | none => []) ++
       (match p.threads with
        | some t => [("threads", toString t)]
        | none => []) ++
       (match p.sockets with
        | some s => [("sockets", toString s)]
        | none => [])) ++
  (match p.maxcpus with
   | some m => [("maxcpus", toString m)]
   | none => [])

/-- Rust's `String::pop`: remove the last character (no-op on `""`). -/
def strPop (s : String) : String :=
  ⟨s.data.dropLast⟩

/-- An enumeration `order` of the pairs of a hash map holding the pairs
`pairs`: every entry appears exactly once, in an order the `HashMap`
iterator is free to choose.  This models `opts.into_iter()`. -/
def IsIterationOrder (p : Processors) (order : List (String × String)) : Prop :=
  List.Perm order p.opts

/-- The tail of `<Processors as IntoArguments>::into_arguments`: map each
pair to `"<opt>=<val>,"`, fold the pieces together starting from the empty
string, pop the trailing comma, and prepend `"-smp"`.  The argument `order`
is the sequence produced by the hash map's iterator. -/
def smpArguments (order : List (String × String)) : List String :=
  ["-smp", strPop ((order.map (fun kv => kv.1 ++ "=" ++ kv.2 ++ ",")).foldl
    (fun a b => a ++ b) "")]

/-- Comma-separated join (no trailing comma); the shape
`<Processors as IntoArguments>::into_arguments` is proved to compute. -/
def commaJoin : List String → String
  | [] => ""
  | [x] => x
  | x :: y :: xs => x ++ "," ++ commaJoin (y :: xs)

/-- The `Memory` struct of `src/machine.rs` (`size: u64`, `slots: Option<u8>`,
`maxmem: Option<u64>`). -/
structure Memory where
  size : Nat
  slots : Option Nat
  maxmem : Option Nat
  deriving DecidableEq, Repr

/-- `Memory::new(size)`. -/
def Memory.new (size : Nat) : Memory :=
  ⟨size, none, none⟩

/-- `Memory::with(size, slots, maxmem)` (primed: `with` is a Lean keyword). -/
def Memory.with' (size : Nat) (slots : Nat) (maxmem : Nat) : Memory :=
  ⟨size, some slots, some maxmem⟩

/-- `<Memory as IntoArguments>::into_arguments`: start from `"size=<size>"`
and, when both `slots` and `maxmem` are set, append `",slots=<n>"` then
`",maxmem=<m>"`. -/
def Memory.into_arguments (m : Memory) : List String :=
  let settings := "size=" ++ toString m.size
  let settings :=
    match m.slots, m.maxmem with
    | some slots, some maxmem =>
        settings ++ (",slots=" ++ toString slots) ++ (",maxmem=" ++ toString maxmem)
    | _, _ => settings
  ["-m", settings]

/-! ## `src/machine/mod.rs` — `Machine` and its `start` method -/

/-- The `CpuSetup` struct of `src/machine/mod.rs`. -/
structure CpuSetup where
  cpus : Option Nat
  sockets : Option Nat
  cores_per_sockets : Option Nat
  threads_per_cores : Option Nat
  deriving DecidableEq, Repr

/-- `CpuSetup::new(cpus)`. -/
def CpuSetup.new (cpus : Nat) : CpuSetup :=
  ⟨some cpus, none, none, none⟩

/-- `CpuSetup::custom(sockets, cores, threads)`. -/
def CpuSetup.custom (sockets cores threads : Nat) : CpuSetup :=
  ⟨none, some sockets, some cores, some threads⟩

/-- The `MemorySetup` struct of `src/machine/mod.rs`. -/
structure MemorySetup where
  size : Nat
  slots : Option Nat
  maxmem : Option Nat
  deriving DecidableEq, Repr

/-- `MemorySetup::new(size)`. -/
def MemorySetup.new (size : Nat) : MemorySetup :=
  ⟨size, none, none⟩

/-- `MemorySetup::hotpluggable(size, slots, maxmem)`. -/
def MemorySetup.hotpluggable (size : Nat) (slots : Nat) (maxmem : Nat) :
    MemorySetup :=
  ⟨size, some slots, some maxmem⟩

/-- The `DriveMedia` enum of `src/machine/mod.rs`. -/
inductive DriveMedia
  | CDRom
  | Disk
  deriving DecidableEq, Repr

/-- The `Display` impl for `DriveMedia`: the debug name in lowercase. -/
def DriveMedia.render : DriveMedia → String
  | .CDRom => "cdrom"
  | .Disk => "disk"

/-- The `Drive` struct of `src/machine/mod.rs`. -/
structure Drive where
  media : DriveMedia
  file : String
  deriving DecidableEq, Repr

/-- `Drive::new(media, file)`. -/
def Drive.new (media : DriveMedia) (file : String) : Drive :=
  ⟨media, file⟩

/-- The `TapInterface` struct of `src/machine/mod.rs`. -/
structure TapInterface where
  name : String
  custom_mac : Option String
  deriving DecidableEq, Repr

/-- `TapInterface::new(name)`. -/
def TapInterface.new (name : String) : TapInterface :=
  ⟨name, none⟩

/-- `TapInterface::with_mac_addr(name, mac)`. -/
def TapInterface.with_mac_addr (name mac : String) : TapInterface :=
  ⟨name, some mac⟩

/-- The `Machine` struct of `src/machine/mod.rs`. -/
structure Machine where
  kvm : Bool
  cpu : CpuSetup
  mem : MemorySetup
  drives : List Drive
  interfaces : List TapInterface
  deriving DecidableEq, Repr

/-- The `MachineStatus` struct of `src/machine/mod.rs`. -/
structure MachineStatus where
  running : Bool
  deriving DecidableEq, Repr

/-- `Machine::new(cpu, mem, use_kvm)`: empty drive and interface lists. -/
def Machine.new (cpu : CpuSetup) (mem : MemorySetup) (use_kvm : Bool) :
    Machine :=
  ⟨use_kvm, cpu, mem, [], []⟩

/-- `Machine::add_drive(drive)`: push onto the drive list. -/
def Machine.add_drive (m : Machine) (drive : Drive) : Machine :=
  { m with drives := m.drives ++ [drive] }

/-- `Machine::add_interface(iface)`: push onto the interface list. -/
def Machine.add_interface (m : Machine) (iface : TapInterface) : Machine :=
  { m with interfaces := m.interfaces ++ [iface] }

/-- The CPU section of `Machine::start` (lines 245–269): the arguments it
adds to the command, or the `InvalidArgument` early return. -/
def cpuArgs (cpu : CpuSetup) : Except Error (List String) :=
  match cpu.cpus with
  | some cpus =>
      if cpus > 0 then
        .ok ["-smp", toString cpus]
      else
        .error (.InvalidArgument
          "Invalid number of CPUs (must be greater than 0)")
  | none =>
      match cpu.sockets, cpu.cores_per_sockets, cpu.threads_per_cores with
      | some sockets, some cores, some threads =>
          if sockets > 0 && cores > 0 && threads > 0 then
            .ok ["-smp",
              "cores=" ++ toString cores ++ ",threads=" ++ toString threads ++
              ",sockets=" ++ toString sockets]
          else
            .error (.InvalidArgument
              "Invalid CPU parameters (sockets, cores, threads) (must be greater than 0)")
      | _, _, _ => .ok []

/-- The memory section of `Machine::start` (lines 271–302): the single
`-m` value string, or the `InvalidArgument` early return.  Checks run in
source order: size first, then (when both are set) slots, then maxmem. -/
def memArg (mem : MemorySetup) : Except Error String :=
  if mem.size > 0 then
    match mem.slots, mem.maxmem with
    | some slots, some maxmem =>
        if slots > 0 then
          if maxmem > 0 then
            .ok (toString mem.size ++ (",slots=" ++ toString slots) ++
              (",maxmem=" ++ toString maxmem))
          else
            .error (.InvalidArgument
              "Invalid maximum memory amout (must be greater than 0)")
        else
          .error (.InvalidArgument
            "Invalid memory slots number (must be greater than 0)")
    | _, _ => .ok (toString mem.size)
  else
    .error (.InvalidArgument "Invalid memory size (must be greater than 0)")

/-- The network-interface loop of `Machine::start` (lines 307–327): for each
interface, `-netdev tap,id=<name>,ifname=<name>` and `-device <dev>` where
`dev` is `virtio-net,netdev=<name>` plus `,mac=<addr>` when a non-empty
custom MAC is set; an empty custom MAC is the `InvalidArgument` early
return. -/
def netArgs : List TapInterface → Except Error (List String)
  | [] => .ok []
  | iface :: rest =>
      match iface.custom_mac with
      | some mac =>
          if mac.length > 0 then
            match netArgs rest with
            | .ok tail =>
                .ok (["-netdev",
                      "tap,id=" ++ iface.name ++ ",ifname=" ++ iface.name,
                      "-device",
                      "virtio-net,netdev=" ++ iface.name ++ ",mac=" ++ mac] ++
                  tail)
            | .error e => .error e
          else
            .error (.InvalidArgument "Invalid custom MAC address")
      | none =>
          match netArgs rest with
          | .ok tail =>
              .ok (["-netdev",
                    "tap,id=" ++ iface.name ++ ",ifname=" ++ iface.name,
                    "-device",
                    "virtio-net,netdev=" ++ iface.name] ++ tail)
          | .error e => .error e

/-- The argument-assembly part of `Machine::start` (lines 232–327): the
arguments handed to the command, in the order the source adds them
(`-enable-kvm` when KVM is requested, then the CPU, memory and network
sections), or the first `InvalidArgument` early return.  Note the source
never consults `self.drives`. -/
def Machine.startArgs (m : Machine) : Except Error (List String) := do
  let kvmArgs := if m.kvm then ["-enable-kvm"] else []
  let cpu ← cpuArgs m.cpu
  let memv ← memArg m.mem
  let net ← netArgs m.interfaces
  pure (kvmArgs ++ cpu ++ ["-m", memv] ++ net)

/-- The full argv of the spawned process: the fixed program name
`qemu-system-x86_64` followed by the assembled arguments. -/
def Machine.startArgv (m : Machine) : Except Error (List String) :=
  (m.startArgs).map (fun args => "qemu-system-x86_64" :: args)

/-- The outcome the operating system produces for the spawn-and-poll tail of
`Machine::start` (lines 329–361): either the spawn call itself failed, or it
succeeded and the single `try_wait` poll (after the fixed 500 ms sleep)
found the child still running, found it exited (with the result of reading
the captured stderr: `some text` on a successful read, `none` when the read
failed), or itself returned an error. -/
inductive SpawnOutcome
  | spawnFail (err : String)
  | stillRunning
  | exited (stderrRead : Option String)
  | pollFail (err : String)
  deriving DecidableEq, Repr

deriving instance DecidableEq for Except

/-- Result of one `Machine::start` call: whether an OS spawn was attempted
at all (the numeric-guard early returns happen before `cmd.spawn()`), and
the returned `Result`. -/
structure StartTrace where
  spawn_attempted : Bool
  result : Except Error MachineStatus
  deriving DecidableEq, Repr

/-- `Machine::start`, parameterised by the OS outcome: if assembling the
arguments fails, that error is returned without spawning; otherwise the
spawn is attempted and the outcome is mapped exactly as lines 329–361 do. -/
def Machine.start (m : Machine) (os : SpawnOutcome) : StartTrace :=
  match m.startArgs with
  | .error e => ⟨false, .error e⟩
  | .ok _ =>
      ⟨true,
        match os with
        | .spawnFail err => .error (.Io err)
        | .stillRunning => .ok ⟨true⟩
        | .exited (some out) => .error (.Runtime ("QEMU exited: " ++ out))
        | .exited none => .error (.Runtime "QEMU exited unexpectedly")
        | .pollFail err => .error (.Io err)⟩

/-! ## `src/lib.rs` — executable resolution and the `Builder` -/

/-- The parts of the operating system `Builder::new` consults:
`Path::new(p).exists()`, `Path::is_file()`, and the `PATH` environment
variable already split into its ordered directories by `env::split_paths`
(`none` when the variable is unset).  A path that is a file exists, which
`wf` records. -/
structure SysEnv where
  pathExists : String → Bool
  isFile : String → Bool
  pathVar : Option (List String)
  wf : ∀ p, isFile p = true → pathExists p = true

/-- `Path::join` on Unix: directory, separator, file name. -/
def joinPath (dir exec : String) : String :=
  dir ++ "/" ++ exec

/-- The `for path in env::split_paths(&paths)` loop of `Builder::new`
(lines 32–38): the first directory-joined candidate that is a file. -/
def searchLoop (env : SysEnv) (exec : String) : List String → Option String
  | [] => none
  | dir :: rest =>
      let path := joinPath dir exec
      if env.isFile path then some path else searchLoop env exec rest

/-- The `Builder` struct of `src/lib.rs`: the resolved executable and the
accumulated parameters.  A `Parameter` trait object is represented by what
`Parameter::take` extracts from it: its name and optional value. -/
structure Builder where
  executable : String
  params : List (String × Option String)
  deriving DecidableEq, Repr

/-- `Builder::new(executable)` (lines 26–57): if the reference exists as
given (`Path::exists`, so a directory also qualifies) it is used verbatim;
otherwise the `PATH` directories are scanned in order for the first joined
candidate that is a file; when `PATH` is unset or no candidate is a file,
the result is `ExecutableNotFound` carrying the original reference. -/
def Builder.new (env : SysEnv) (exec : String) : Except InitError Builder :=
  match env.pathExists exec with
  | false =>
      match env.pathVar.bind (fun dirs => searchLoop env exec dirs) with
      | some path => .ok ⟨path, []⟩
      | none => .error (.ExecutableNotFound exec)
  | true => .ok ⟨exec, []⟩

/-- Modelled from the spec: a method appending a configuration fragment to
the builder (`with(configuration_fragment)` in the spec, called `set` by
`examples/basic.rs`) is absent from the source files — only that example
calls it.  Per the spec it appends the fragment's tokens to the accumulated
sequence, returns the builder for chaining, and never fails. -/
def Builder.set (b : Builder) (fragment : List (String × Option String)) :
    Builder :=
  ⟨b.executable, b.params ++ fragment⟩

/-- The argv `Builder::start` (lines 61–68) hands to the OS: the source
runs `Command::new(self.executable)` and calls `spawn()` without ever
adding arguments, so the spawned argv is the executable alone —
`self.params` is never read. -/
def Builder.spawnArgv (b : Builder) : List String :=
  [b.executable]

/-! ## `src/image/mod.rs` — `Image::write` -/

/-- The `Format` enum of `src/image/mod.rs`. -/
inductive Format
  | Raw
  | QCow
  | QCow2
  | Vmdk
  | Vdi
  | Vhdx
  | Vpc
  deriving DecidableEq, Repr

/-- The `Display` impl for `Format`: the debug name in lowercase. -/
def Format.render : Format → String
  | .Raw => "raw"
  | .QCow => "qcow"
  | .QCow2 => "qcow2"
  | .Vmdk => "vmdk"
  | .Vdi => "vdi"
  | .Vhdx => "vhdx"
  | .Vpc => "vpc"

/-- The `Image` struct of `src/image/mod.rs`. -/
structure Image where
  path : String
  format : Format
  size : Nat
  deriving DecidableEq, Repr

/-- `Image::new(path, format, size)`. -/
def Image.new (path : String) (format : Format) (size : Nat) : Image :=
  ⟨path, format, size⟩

/-- The argv `Image::write` hands to the OS (lines 69–75):
`qemu-img create -f <format> <path> <size>`. -/
def Image.writeArgv (img : Image) : List String :=
  ["qemu-img", "create", "-f", img.format.render, img.path, toString img.size]

/-- The outcome the OS produces for the blocking `Command::output()` call of
`Image::write`: either the spawn failed, or the tool ran to completion with
an exit code and a captured standard output (the output is modelled as the
already-decoded string; the source panics on invalid UTF-8, which is outside
this model). -/
inductive ImgOutcome
  | spawnFail (err : String)
  | ran (exitCode : Nat) (stdout : String)
  deriving DecidableEq, Repr

/-- The result mapping of `Image::write` (lines 77–87): exit status 0 is
`Ok(())`; a non-zero exit is `Error::Other` carrying the captured standard
output; a failed spawn is `Error::Io`. -/
def Image.write (_ : Image) (out : ImgOutcome) : Except Error Unit :=
  match out with
  | .ran code stdout =>
      if code = 0 then .ok () else .error (.Other stdout)
  | .spawnFail err => .error (.Io err)

/-! ## Statement-side helper definitions -/

/-- Concatenation of a list of strings (used to describe the fold in
`<Processors as IntoArguments>::into_arguments`). -/
def concatStrs : List String → String
  | [] => ""
  | x :: xs => x ++ concatStrs xs

/-- The single rendered pair for an optional field: `[(key, value)]` when
set, nothing when unset. -/
def optPair (key : String) : Option Nat → List (String × String)
  | some n => [(key, toString n)]
  | none => []

/-- Whether `needle` is a prefix of `hay` (character lists). -/
def isPrefixChars : List Char → List Char → Bool
  | [], _ => true
  | _ :: _, [] => false
  | c :: cs, d :: ds => c == d && isPrefixChars cs ds

/-- Whether `needle` occurs contiguously inside `hay` (character lists). -/
def subChars (needle : List Char) : List Char → Bool
  | [] => isPrefixChars needle []
  | d :: ds => isPrefixChars needle (d :: ds) || subChars needle ds

/-- Whether `needle` occurs as a substring of `hay`. -/
def strContains (hay needle : String) : Bool :=
  subChars needle.data hay.data

/-- The numeric guards of `Machine::start` listed by the spec: a flat CPU
count of 0; a zero among sockets/cores/threads in a fully specified custom
CPU setup; a memory size of 0; a zero slot count or zero maxmem when both
are set; an empty custom MAC address on some attached interface. -/
def GuardFails (m : Machine) : Prop :=
  m.cpu.cpus = some 0
  ∨ (m.cpu.cpus = none ∧ ∃ s c t,
      m.cpu.sockets = some s ∧ m.cpu.cores_per_sockets = some c ∧
      m.cpu.threads_per_cores = some t ∧ (s = 0 ∨ c = 0 ∨ t = 0))
  ∨ m.mem.size = 0
  ∨ (∃ sl mx, m.mem.slots = some sl ∧ m.mem.maxmem = some mx ∧
      (sl = 0 ∨ mx = 0))
  ∨ (∃ i, i ∈ m.interfaces ∧ i.custom_mac = some "")

/-! ## Concrete instances used by counterexamples and witnesses -/

/-- An environment in which `vm` exists but is a directory, while `/bin/vm`
is a file reachable through the single `PATH` entry `/bin`. -/
def envDir : SysEnv where
  pathExists := fun s => s == "vm" || s == "/bin/vm"
  isFile := fun s => s == "/bin/vm"
  pathVar := some ["/bin"]
  wf := fun p h => by
    cases eq_of_beq h
    decide

/-- An environment with one file `/bin/tool` (reachable through the second
`PATH` entry), one other existing path `/direct`, and `PATH` set to
`/sbin:/bin`. -/
def envTool : SysEnv where
  pathExists := fun s => s == "/bin/tool" || s == "/direct"
  isFile := fun s => s == "/bin/tool"
  pathVar := some ["/sbin", "/bin"]
  wf := fun p h => by
    cases eq_of_beq h
    decide

/-- An environment in which `qemu-system-x86_64` is an existing file as
given. -/
def envQemu : SysEnv where
  pathExists := fun s => s == "qemu-system-x86_64"
  isFile := fun s => s == "qemu-system-x86_64"
  pathVar := none
  wf := fun p h => by
    cases eq_of_beq h
    decide

/-- A machine with one attached CD-ROM drive and one attached interface. -/
def machineWithDrive : Machine :=
  ((Machine.new (CpuSetup.new 1) (MemorySetup.new 512) false).add_drive
      (Drive.new .CDRom "disk.img")).add_interface (TapInterface.new "tap0")

/-! ## Helper lemmas: string concatenation and the comma join -/

theorem strAppend_assoc (a b c : String) : a ++ b ++ c = a ++ (b ++ c) := by
  apply congrArg String.mk
  exact List.append_assoc a.data b.data c.data

theorem strAppend_empty (a : String) : a ++ "" = a := by
  apply congrArg String.mk
  exact List.append_nil a.data

theorem foldl_append_eq_concat (xs : List String) :
    ∀ acc : String, xs.foldl (fun a b => a ++ b) acc = acc ++ concatStrs xs := by
  induction xs with
  | nil => intro acc; simp [concatStrs, strAppend_empty]
  | cons x xs ih =>
      intro acc
      simp only [List.foldl_cons, concatStrs]
      rw [ih (acc ++ x), strAppend_assoc]

theorem foldl_append_nil_eq_concat (xs : List String) :
    xs.foldl (fun a b => a ++ b) "" = concatStrs xs := by
  rw [foldl_append_eq_concat]
  rfl

theorem concatStrs_trail_ne_nil (z : String) (zs : List String) :
    (concatStrs ((z :: zs).map (fun s => s ++ ","))).data ≠ [] := by
  show ((z.data ++ [',']) ++ (concatStrs (zs.map (fun s => s ++ ","))).data) ≠ []
  simp

theorem strPop_concat_trail (xs : List String) :
    strPop (concatStrs (xs.map (fun s => s ++ ","))) = commaJoin xs := by
  induction xs with
  | nil => rfl
  | cons x xs ih =>
      cases xs with
      | nil =>
          show strPop (x ++ "," ++ "") = x
          rw [strAppend_empty]
          apply congrArg String.mk
          show (x.data ++ [',']).dropLast = x.data
          exact List.dropLast_concat
      | cons y ys =>
          show strPop ((x ++ ",") ++ concatStrs ((y :: ys).map (fun s => s ++ ","))) =
            (x ++ ",") ++ commaJoin (y :: ys)
          rw [← ih]
          apply congrArg String.mk
          show ((x ++ ",").data ++
              (concatStrs ((y :: ys).map (fun s => s ++ ","))).data).dropLast =
            (x ++ ",").data ++
              (concatStrs ((y :: ys).map (fun s => s ++ ","))).data.dropLast
          exact List.dropLast_append_of_ne_nil _ (concatStrs_trail_ne_nil y ys)

theorem smpArguments_eq_commaJoin (order : List (String × String)) :
    smpArguments order =
      ["-smp", commaJoin (order.map (fun kv => kv.1 ++ "=" ++ kv.2))] := by
  have hmap : order.map (fun kv => kv.1 ++ "=" ++ kv.2 ++ ",") =
      (order.map (fun kv => kv.1 ++ "=" ++ kv.2)).map (fun s => s ++ ",") := by
    rw [List.map_map]
    rfl
  unfold smpArguments
  rw [foldl_append_nil_eq_concat, hmap, strPop_concat_trail]

theorem opts_flat (n : Nat) (c t s maxc : Option Nat) :
    (Processors.mk (some n) c t s maxc).opts =
      ("cpus", toString n) :: optPair "maxcpus" maxc := by
  cases maxc <;> rfl

theorem opts_breakdown (c t s maxc : Option Nat) :
    (Processors.mk none c t s maxc).opts =
      optPair "cores" c ++ optPair "threads" t ++ optPair "sockets" s ++
        optPair "maxcpus" maxc := by
  cases c <;> cases t <;> cases s <;> cases maxc <;> rfl

/-! ## Claim C3 -/

/-- C3, counterexample: the claim asserts that `Processors(cpus=1,
maxcpus=255)` renders to exactly `-smp cpus=1,maxcpus=255`, but the pairs
are emitted by iterating a Rust `HashMap`, whose iteration order is
unspecified: the order putting `maxcpus` first is an admissible enumeration
of that map's two entries, and under it `into_arguments` yields
`-smp maxcpus=255,cpus=1`, not the claimed string. -/
theorem smp_order_counterexample :
    IsIterationOrder ((Processors.new 1).set_max_cpus 255)
        [("maxcpus", "255"), ("cpus", "1")]
    ∧ smpArguments [("maxcpus", "255"), ("cpus", "1")] =
        ["-smp", "maxcpus=255,cpus=1"]
    ∧ ["-smp", "maxcpus=255,cpus=1"] ≠ ["-smp", "cpus=1,maxcpus=255"] := by
  refine ⟨?_, by decide, by decide⟩
  unfold IsIterationOrder
  decide

/-- C3, amended: for every `Processors` value and every enumeration the
hash map's iterator may produce, `into_arguments` yields `-smp` followed by
one settings token that comma-joins (with no trailing comma) exactly the
emitted key=value pairs, which are — up to that unspecified order — exactly
the pairs the claim lists: `cpus=<n>` when a flat count is set (taking
priority over any breakdown fields), otherwise the individually set
breakdown keys, plus `maxcpus=<m>` when set; and for
`Processors(cpus=1, maxcpus=255)` the enumeration putting `cpus` first
renders exactly `-smp cpus=1,maxcpus=255`. -/
theorem smp_into_arguments_amended :
    (∀ (p : Processors) (order : List (String × String)),
        IsIterationOrder p order →
          smpArguments order =
            ["-smp", commaJoin (order.map (fun kv => kv.1 ++ "=" ++ kv.2))]
          ∧ List.Perm order p.opts)
  ∧ (∀ (n : Nat) (c t s maxc : Option Nat),
        (Processors.mk (some n) c t s maxc).opts =
          ("cpus", toString n) :: optPair "maxcpus" maxc)
  ∧ (∀ (c t s : Option Nat) (p : Processors),
        Processors.with' c t s = .ok p →
          p.opts = optPair "cores" c ++ optPair "threads" t ++
            optPair "sockets" s)
  ∧ IsIterationOrder ((Processors.new 1).set_max_cpus 255)
      [("cpus", "1"), ("maxcpus", "255")]
  ∧ smpArguments [("cpus", "1"), ("maxcpus", "255")] =
      ["-smp", "cpus=1,maxcpus=255"] := by
  refine ⟨?_, ?_, ?_, ?_, by decide⟩
  · intro p order h
    exact ⟨smpArguments_eq_commaJoin order, h⟩
  · intro n c t s maxc
    exact opts_flat n c t s maxc
  · intro c t s p h
    unfold Processors.with' at h
    split at h
    · exact absurd h (by simp)
    · cases h
      rw [opts_breakdown]
      simp [optPair]
  · unfold IsIterationOrder
    decide

/-- C3, witness for the amended theorem: its universally quantified part
applied at `Processors(cpus=1, maxcpus=255)` and the insertion-order
enumeration of its map. -/
theorem smp_into_arguments_amended_witness :
    smpArguments [("cpus", "1"), ("maxcpus", "255")] =
      ["-smp", commaJoin ([(("cpus" : String), ("1" : String)),
        ("maxcpus", "255")].map (fun kv => kv.1 ++ "=" ++ kv.2))]
    ∧ List.Perm [(("cpus" : String), ("1" : String)), ("maxcpus", "255")]
        ((Processors.new 1).set_max_cpus 255).opts
    ∧ (Processors.mk none (some 2) none none none).opts =
        optPair "cores" (some 2) ++ optPair "threads" none ++
          optPair "sockets" none :=
  ⟨(smp_into_arguments_amended.1 ((Processors.new 1).set_max_cpus 255)
      [("cpus", "1"), ("maxcpus", "255")]
      (by unfold IsIterationOrder; decide)).1,
    (smp_into_arguments_amended.1 ((Processors.new 1).set_max_cpus 255)
      [("cpus", "1"), ("maxcpus", "255")]
      (by unfold IsIterationOrder; decide)).2,
    smp_into_arguments_amended.2.2.1 (some 2) none none
      (Processors.mk none (some 2) none none none) rfl⟩

/-! ## Claim C4 -/

/-- C4: `Memory::into_arguments` returns `-m` followed by one settings
token: `size=<size>` when slots or maxmem is unset (in particular when only
one of them is set), and `size=<size>,slots=<n>,maxmem=<m>` when both are
set; there is never a trailing comma, and the two concrete renderings the
claim lists hold: `Memory(512)` gives `-m size=512` and
`Memory(1024, 3, 4096)` gives `-m size=1024,slots=3,maxmem=4096`. -/
theorem memory_into_arguments_spec :
    (∀ size : Nat, (Memory.new size).into_arguments =
        ["-m", "size=" ++ toString size])
  ∧ (∀ size slots maxmem : Nat,
        (Memory.with' size slots maxmem).into_arguments =
          ["-m", ("size=" ++ toString size) ++ (",slots=" ++ toString slots) ++
            (",maxmem=" ++ toString maxmem)])
  ∧ (∀ size slots : Nat, (Memory.mk size (some slots) none).into_arguments =
        ["-m", "size=" ++ toString size])
  ∧ (∀ size maxmem : Nat, (Memory.mk size none (some maxmem)).into_arguments =
        ["-m", "size=" ++ toString size])
  ∧ (Memory.new 512).into_arguments = ["-m", "size=512"]
  ∧ (Memory.with' 1024 3 4096).into_arguments =
      ["-m", "size=1024,slots=3,maxmem=4096"] :=
  ⟨fun _ => rfl, fun _ _ _ => rfl, fun _ _ => rfl, fun _ _ => rfl,
    by decide, by decide⟩

/-! ## Claim C6 -/

/-- C6: `Processors::with(cores, threads, sockets)` fails with
`InvalidConfig` if and only if all three arguments are `None`; when at
least one is `Some`, it succeeds with exactly the given fields and no flat
CPU count, no maxcpus. -/
theorem processors_with_invalid_config :
    (∀ cores threads sockets : Option Nat,
        (∃ msg, Processors.with' cores threads sockets =
            .error (.InvalidConfig msg))
        ↔ cores = none ∧ threads = none ∧ sockets = none)
  ∧ (∀ cores threads sockets : Option Nat,
        (cores ≠ none ∨ threads ≠ none ∨ sockets ≠ none) →
        Processors.with' cores threads sockets =
          .ok ⟨none, cores, threads, sockets, none⟩) := by
  constructor
  · intro cores threads sockets
    constructor
    · intro ⟨msg, h⟩
      unfold Processors.with' at h
      split at h
      · next hcond =>
          simp only [Bool.and_eq_true, Option.isNone_iff_eq_none] at hcond
          exact ⟨hcond.1.1, hcond.1.2, hcond.2⟩
      · exact absurd h (by simp)
    · rintro ⟨h1, h2, h3⟩
      subst h1; subst h2; subst h3
      exact ⟨"cpu cores, threads, or sockets must be defined", rfl⟩
  · intro cores threads sockets h
    unfold Processors.with'
    split
    · next hcond =>
        simp only [Bool.and_eq_true, Option.isNone_iff_eq_none] at hcond
        rcases h with h | h | h
        · exact absurd hcond.1.1 h
        · exact absurd hcond.1.2 h
        · exact absurd hcond.2 h
    · rfl

/-- C6, witness: the theorem applied at `cores = Some 1, threads = None,
sockets = None` (success case) and at all-`None` (failure case). -/
theorem processors_with_invalid_config_witness :
    Processors.with' (some 1) none none =
      .ok ⟨none, some 1, none, none, none⟩
    ∧ (∃ msg, Processors.with' none none none =
        .error (.InvalidConfig msg)) :=
  ⟨processors_with_invalid_config.2 (some 1) none none (Or.inl (by decide)),
    (processors_with_invalid_config.1 none none none).mpr ⟨rfl, rfl, rfl⟩⟩

/-! ## Claim C5 -/

theorem searchLoop_eq_find (env : SysEnv) (exec : String) :
    ∀ dirs : List String,
      searchLoop env exec dirs =
        (dirs.find? (fun d => env.isFile (joinPath d exec))).map
          (fun d => joinPath d exec) := by
  intro dirs
  induction dirs with
  | nil => rfl
  | cons d rest ih =>
      show (if env.isFile (joinPath d exec) then some (joinPath d exec)
            else searchLoop env exec rest) = _
      rw [List.find?_cons]
      cases h : env.isFile (joinPath d exec) with
      | false => simp [h, ih]
      | true => simp [h]

/-- C5, counterexample: the claim says a reference that does not resolve to
an existing *file* as given falls through to the `PATH` scan, but the code
tests `Path::exists()`, which a directory also satisfies.  In `envDir` the
reference `vm` is not a file (it is an existing directory) and the `PATH`
entry `/bin` holds the file `/bin/vm`, so under the claim resolution should
return `/bin/vm`; the code instead returns `vm` verbatim. -/
theorem builder_new_directory_counterexample :
    envDir.isFile "vm" = false
  ∧ envDir.pathExists "vm" = true
  ∧ envDir.pathVar = some ["/bin"]
  ∧ envDir.isFile (joinPath "/bin" "vm") = true
  ∧ Builder.new envDir "vm" = .ok ⟨"vm", []⟩
  ∧ Builder.new envDir "vm" ≠ .ok ⟨joinPath "/bin" "vm", []⟩ := by
  refine ⟨rfl, rfl, rfl, rfl, rfl, by decide⟩

/-- C5, amended: `Builder::new(reference)` uses the reference verbatim when
it names an existing *path* as given (the check is `Path::exists()`, so a
directory also qualifies — not only a file as the claim says); otherwise
the `PATH` directories are scanned in order and the first directory-joined
candidate that is a file wins; when `PATH` is unset or no candidate is a
file, construction fails with `ExecutableNotFound` naming the original
reference. -/
theorem builder_new_resolution :
    ∀ (env : SysEnv) (exec : String),
      (env.pathExists exec = true → Builder.new env exec = .ok ⟨exec, []⟩)
    ∧ (∀ (dirs : List String) (d : String),
        env.pathExists exec = false →
        env.pathVar = some dirs →
        dirs.find? (fun dir => env.isFile (joinPath dir exec)) = some d →
        Builder.new env exec = .ok ⟨joinPath d exec, []⟩)
    ∧ (env.pathExists exec = false →
        (∀ dirs : List String, env.pathVar = some dirs →
          dirs.find? (fun dir => env.isFile (joinPath dir exec)) = none) →
        Builder.new env exec = .error (.ExecutableNotFound exec)) := by
  intro env exec
  refine ⟨?_, ?_, ?_⟩
  · intro h
    unfold Builder.new
    rw [h]
  · intro dirs d hex hvar hfind
    unfold Builder.new
    rw [hex, hvar]
    show (match (searchLoop env exec dirs) with
          | some path => Except.ok (Builder.mk path [])
          | none => Except.error (InitError.ExecutableNotFound exec)) = _
    rw [searchLoop_eq_find, hfind]
    rfl
  · intro hex hnone
    unfold Builder.new
    rw [hex]
    cases hvar : env.pathVar with
    | none => rfl
    | some dirs =>
        show (match (searchLoop env exec dirs) with
              | some path => Except.ok (Builder.mk path [])
              | none => Except.error (InitError.ExecutableNotFound exec)) = _
        rw [searchLoop_eq_find, hnone dirs hvar]
        rfl

/-- C5, witness: the theorem applied in `envTool` at the three concrete
references `/direct` (exists as given), `tool` (found under the second
`PATH` directory, the first being skipped) and `nope` (found nowhere). -/
theorem builder_new_resolution_witness :
    Builder.new envTool "/direct" = .ok ⟨"/direct", []⟩
  ∧ Builder.new envTool "tool" = .ok ⟨joinPath "/bin" "tool", []⟩
  ∧ Builder.new envTool "nope" = .error (.ExecutableNotFound "nope") :=
  ⟨(builder_new_resolution envTool "/direct").1 rfl,
    (builder_new_resolution envTool "tool").2.1 ["/sbin", "/bin"] "/bin"
      rfl rfl (by decide),
    (builder_new_resolution envTool "nope").2.2 rfl
      (fun dirs h => by
        cases h
        decide)⟩

/-! ## Helper lemmas: decimal digits and the `-enable-kvm` token -/

theorem digitChar_ne_dash (n : Nat) : Nat.digitChar n ≠ '-' := by
  rcases Nat.lt_or_ge n 16 with h | h
  · interval_cases n <;> decide
  · have h0 : n ≠ 0 := by omega
    have h1 : n ≠ 1 := by omega
    have h2 : n ≠ 2 := by omega
    have h3 : n ≠ 3 := by omega
    have h4 : n ≠ 4 := by omega
    have h5 : n ≠ 5 := by omega
    have h6 : n ≠ 6 := by omega
    have h7 : n ≠ 7 := by omega
    have h8 : n ≠ 8 := by omega
    have h9 : n ≠ 9 := by omega
    have h10 : n ≠ 10 := by omega
    have h11 : n ≠ 11 := by omega
    have h12 : n ≠ 12 := by omega
    have h13 : n ≠ 13 := by omega
    have h14 : n ≠ 14 := by omega
    have h15 : n ≠ 15 := by omega
    simp only [Nat.digitChar, h0, h1, h2, h3, h4, h5, h6, h7, h8, h9, h10,
      h11, h12, h13, h14, h15, if_false, ite_false]
    decide

theorem toDigitsCore_ne_dash : ∀ (fuel n : Nat) (ds : List Char),
    (∀ c ∈ ds, c ≠ '-') → ∀ c ∈ Nat.toDigitsCore 10 fuel n ds, c ≠ '-' := by
  intro fuel
  induction fuel with
  | zero =>
      intro n ds h c hc
      simp only [Nat.toDigitsCore] at hc
      exact h c hc
  | succ fuel ih =>
      intro n ds h c hc
      simp only [Nat.toDigitsCore] at hc
      split at hc
      · rcases List.mem_cons.mp hc with h1 | h1
        · subst h1; exact digitChar_ne_dash _
        · exact h c h1
      · refine ih _ _ ?_ c hc
        intro c' hc'
        rcases List.mem_cons.mp hc' with h1 | h1
        · subst h1; exact digitChar_ne_dash _
        · exact h c' h1

theorem toDigitsCore_length : ∀ (fuel n : Nat) (ds : List Char),
    ds.length ≤ (Nat.toDigitsCore 10 fuel n ds).length := by
  intro fuel
  induction fuel with
  | zero => intro n ds; simp [Nat.toDigitsCore]
  | succ fuel ih =>
      intro n ds
      simp only [Nat.toDigitsCore]
      split
      · simp
      · calc ds.length ≤ (Nat.digitChar (n % 10) :: ds).length := by simp
          _ ≤ _ := ih _ _

theorem toString_nat_ne_dash (n : Nat) : ∀ c ∈ (toString n).data, c ≠ '-' :=
  toDigitsCore_ne_dash (n + 1) n [] (by intro c h; cases h)

theorem toString_nat_data_ne_nil (n : Nat) : (toString n).data ≠ [] := by
  have h : 1 ≤ (Nat.toDigits 10 n).length := by
    unfold Nat.toDigits
    simp only [Nat.toDigitsCore]
    split
    · simp
    · have := toDigitsCore_length n (n / 10) [Nat.digitChar (n % 10)]
      simpa using this
  intro hc
  rw [show (toString n).data = Nat.toDigits 10 n from rfl] at hc
  rw [hc] at h
  simp at h

theorem flag_head_ne (s : String) (c : Char) (cs : List Char)
    (h : s.data = c :: cs) (hc : c ≠ '-') : s ≠ "-enable-kvm" := by
  intro he
  rw [he] at h
  rw [show ("-enable-kvm").data =
    '-' :: "enable-kvm".data from rfl] at h
  injection h with h1 _
  exact hc h1.symm

theorem toString_nat_ne_flag (n : Nat) : toString n ≠ "-enable-kvm" := by
  cases hd : (toString n).data with
  | nil => exact absurd hd (toString_nat_data_ne_nil n)
  | cons c cs =>
      exact flag_head_ne _ c cs hd
        (toString_nat_ne_dash n c (hd ▸ List.mem_cons_self c cs))

theorem ne_flag_of_no_dash (s : String) (hne : s.data ≠ [])
    (h : ∀ c ∈ s.data, c ≠ '-') : s ≠ "-enable-kvm" := by
  cases hd : s.data with
  | nil => exact absurd hd hne
  | cons c cs =>
      exact flag_head_ne s c cs hd (h c (hd ▸ List.mem_cons_self c cs))

theorem no_dash_of_all (l : List Char)
    (h : l.all (fun c => !(c == '-')) = true) : ∀ c ∈ l, c ≠ '-' := by
  intro c hc
  have := List.all_eq_true.mp h c hc
  simpa using this

/-! ## Helper lemmas: shapes of the `Machine::start` sections -/

theorem cpuArgs_ok_no_flag (c : CpuSetup) (l : List String)
    (h : cpuArgs c = .ok l) : "-enable-kvm" ∉ l := by
  unfold cpuArgs at h
  split at h
  · split at h
    · cases h
      intro hm
      rcases List.mem_cons.mp hm with h1 | h1
      · exact absurd h1.symm (by decide)
      · rcases List.mem_cons.mp h1 with h2 | h2
        · exact toString_nat_ne_flag _ h2.symm
        · cases h2
    · exact absurd h (by simp)
  · split at h
    · split at h
      · cases h
        intro hm
        rcases List.mem_cons.mp hm with h1 | h1
        · exact absurd h1.symm (by decide)
        · rcases List.mem_cons.mp h1 with h2 | h2
          · exact flag_head_ne _ 'c' _ rfl (by decide) h2.symm
          · cases h2
      · exact absurd h (by simp)
    · cases h
      intro hm
      cases hm

theorem memArg_ok_ne_flag (mm : MemorySetup) (v : String)
    (h : memArg mm = .ok v) : v ≠ "-enable-kvm" := by
  unfold memArg at h
  split at h
  · split at h
    · split at h
      · split at h
        · cases h
          refine ne_flag_of_no_dash _ ?_ ?_
          · simp only [String.data_append]
            intro hnil
            rcases List.append_eq_nil.mp hnil with ⟨h1, _⟩
            rcases List.append_eq_nil.mp h1 with ⟨h2, _⟩
            exact toString_nat_data_ne_nil mm.size h2
          · intro c hc
            simp only [String.data_append] at hc
            rcases List.mem_append.mp hc with h1 | h1
            · rcases List.mem_append.mp h1 with h2 | h2
              · exact toString_nat_ne_dash _ c h2
              · rcases List.mem_append.mp h2 with h3 | h3
                · exact no_dash_of_all (",slots=").data (by decide) c h3
                · exact toString_nat_ne_dash _ c h3
            · rcases List.mem_append.mp h1 with h2 | h2
              · exact no_dash_of_all (",maxmem=").data (by decide) c h2
              · exact toString_nat_ne_dash _ c h2
        · exact absurd h (by simp)
      · exact absurd h (by simp)
    · cases h
      exact toString_nat_ne_flag _
  · exact absurd h (by simp)

theorem netArgs_ok_no_flag : ∀ (l : List TapInterface) (a : List String),
    netArgs l = .ok a → "-enable-kvm" ∉ a := by
  intro l
  induction l with
  | nil =>
      intro a h
      cases h
      intro hm
      cases hm
  | cons i rest ih =>
      intro a h
      cases hm : i.custom_mac with
      | none =>
          simp only [netArgs, hm] at h
          cases hr : netArgs rest with
          | error e => rw [hr] at h; exact absurd h (by simp)
          | ok tail =>
              rw [hr] at h
              cases h
              intro hmem
              simp only [List.cons_append, List.nil_append,
                List.mem_cons] at hmem
              rcases hmem with h1 | h1 | h1 | h1 | h1
              · exact absurd h1 (by decide)
              · exact flag_head_ne _ 't' _ rfl (by decide) h1.symm
              · exact absurd h1 (by decide)
              · exact flag_head_ne _ 'v' _ rfl (by decide) h1.symm
              · exact ih tail hr h1
      | some mac =>
          simp only [netArgs, hm] at h
          split at h
          · cases hr : netArgs rest with
            | error e => rw [hr] at h; exact absurd h (by simp)
            | ok tail =>
                rw [hr] at h
                cases h
                intro hmem
                simp only [List.cons_append, List.nil_append,
                  List.mem_cons] at hmem
                rcases hmem with h1 | h1 | h1 | h1 | h1
                · exact absurd h1 (by decide)
                · exact flag_head_ne _ 't' _ rfl (by decide) h1.symm
                · exact absurd h1 (by decide)
                · exact flag_head_ne _ 'v' _ rfl (by decide) h1.symm
                · exact ih tail hr h1
          · exact absurd h (by simp)

theorem startArgs_ok_inv (m : Machine) (args : List String)
    (h : m.startArgs = .ok args) :
    ∃ ca ma na, cpuArgs m.cpu = .ok ca ∧ memArg m.mem = .ok ma ∧
      netArgs m.interfaces = .ok na ∧
      args = (if m.kvm then ["-enable-kvm"] else []) ++ ca ++ ["-m", ma] ++ na := by
  unfold Machine.startArgs at h
  cases hc : cpuArgs m.cpu with
  | error e => simp [hc, bind, Except.bind] at h
  | ok ca =>
      cases hm : memArg m.mem with
      | error e => simp [hc, hm, bind, Except.bind] at h
      | ok ma =>
          cases hn : netArgs m.interfaces with
          | error e => simp [hc, hm, hn, bind, Except.bind] at h
          | ok na =>
              simp only [hc, hm, hn, bind, Except.bind, pure] at h
              cases h
              exact ⟨ca, ma, na, rfl, rfl, rfl, rfl⟩

theorem startArgs_error_inv (m : Machine) (e : Error)
    (h : m.startArgs = .error e) :
    cpuArgs m.cpu = .error e ∨ memArg m.mem = .error e ∨
      netArgs m.interfaces = .error e := by
  unfold Machine.startArgs at h
  cases hc : cpuArgs m.cpu with
  | error e' =>
      rw [hc] at h
      simp only [bind, Except.bind] at h
      obtain rfl : e' = e := by injection h
      exact Or.inl rfl
  | ok ca =>
      rw [hc] at h
      cases hm : memArg m.mem with
      | error e' =>
          rw [hm] at h
          simp only [bind, Except.bind] at h
          obtain rfl : e' = e := by injection h
          exact Or.inr (Or.inl rfl)
      | ok ma =>
          rw [hm] at h
          cases hn : netArgs m.interfaces with
          | error e' =>
              rw [hn] at h
              simp only [bind, Except.bind] at h
              obtain rfl : e' = e := by injection h
              exact Or.inr (Or.inr rfl)
          | ok na =>
              simp only [hn, bind, Except.bind, pure, Except.pure] at h
              exact absurd h (by simp)

theorem cpuArgs_error_shape (c : CpuSetup) (e : Error)
    (h : cpuArgs c = .error e) : ∃ msg, e = .InvalidArgument msg := by
  unfold cpuArgs at h
  split at h
  · split at h
    · exact absurd h (by simp)
    · cases h; exact ⟨_, rfl⟩
  · split at h
    · split at h
      · exact absurd h (by simp)
      · cases h; exact ⟨_, rfl⟩
    · exact absurd h (by simp)

theorem memArg_error_shape (mm : MemorySetup) (e : Error)
    (h : memArg mm = .error e) : ∃ msg, e = .InvalidArgument msg := by
  unfold memArg at h
  split at h
  · split at h
    · split at h
      · split at h
        · exact absurd h (by simp)
        · cases h; exact ⟨_, rfl⟩
      · cases h; exact ⟨_, rfl⟩
    · exact absurd h (by simp)
  · cases h; exact ⟨_, rfl⟩

theorem netArgs_error_shape : ∀ (l : List TapInterface) (e : Error),
    netArgs l = .error e → ∃ msg, e = .InvalidArgument msg := by
  intro l
  induction l with
  | nil => intro e h; exact absurd h (by simp [netArgs])
  | cons i rest ih =>
      intro e h
      cases hm : i.custom_mac with
      | none =>
          simp only [netArgs, hm] at h
          cases hr : netArgs rest with
          | error e' =>
              rw [hr] at h
              obtain rfl : e' = e := by injection h
              exact ih _ hr
          | ok tail => rw [hr] at h; exact absurd h (by simp)
      | some mac =>
          simp only [netArgs, hm] at h
          split at h
          · cases hr : netArgs rest with
            | error e' =>
                rw [hr] at h
                obtain rfl : e' = e := by injection h
                exact ih _ hr
            | ok tail => rw [hr] at h; exact absurd h (by simp)
          · obtain rfl : Error.InvalidArgument "Invalid custom MAC address" = e := by
              injection h
            exact ⟨_, rfl⟩

theorem cpuArgs_ok_guards (c : CpuSetup) (l : List String)
    (h : cpuArgs c = .ok l) :
    c.cpus ≠ some 0 ∧
      (∀ s co t, c.cpus = none → c.sockets = some s →
        c.cores_per_sockets = some co → c.threads_per_cores = some t →
        0 < s ∧ 0 < co ∧ 0 < t) := by
  unfold cpuArgs at h
  split at h
  · next cpus heq =>
      split at h
      · next hz =>
          refine ⟨?_, ?_⟩
          · rw [heq]
            intro hcc
            injection hcc with hcc
            omega
          · intro s co t hnone
            rw [heq] at hnone
            cases hnone
      · exact absurd h (by simp)
  · next heq =>
      split at h
      · next sk cr th hs0 hco0 hth0 =>
          split at h
          · next hz =>
              simp only [Bool.and_eq_true, decide_eq_true_eq] at hz
              refine ⟨by rw [heq]; simp, ?_⟩
              intro s' co' t' _ hs hco ht
              rw [hs0] at hs
              rw [hco0] at hco
              rw [hth0] at ht
              injection hs with hs
              injection hco with hco
              injection ht with ht
              omega
          · exact absurd h (by simp)
      · next hall =>
          refine ⟨by rw [heq]; simp, ?_⟩
          intro s co t _ hs hco ht
          exact (hall s co t hs hco ht).elim

theorem memArg_ok_guards (mm : MemorySetup) (v : String)
    (h : memArg mm = .ok v) :
    0 < mm.size ∧
      (∀ sl mx, mm.slots = some sl → mm.maxmem = some mx →
        0 < sl ∧ 0 < mx) := by
  unfold memArg at h
  split at h
  · next hsz =>
      refine ⟨hsz, ?_⟩
      intro sl mx hsl hmx
      split at h
      · next sl' mx' hsl0 hmx0 =>
          rw [hsl0] at hsl
          rw [hmx0] at hmx
          injection hsl with hsl
          injection hmx with hmx
          subst hsl; subst hmx
          split at h
          · split at h
            · next h1 h2 => exact ⟨by omega, by omega⟩
            · exact absurd h (by simp)
          · exact absurd h (by simp)
      · next hne =>
          exact (hne sl mx hsl hmx).elim
  · exact absurd h (by simp)

theorem netArgs_ok_guards : ∀ (l : List TapInterface) (a : List String),
    netArgs l = .ok a → ∀ i ∈ l, i.custom_mac ≠ some "" := by
  intro l
  induction l with
  | nil => intro a _ i hi; cases hi
  | cons j rest ih =>
      intro a h i hi
      cases hm : j.custom_mac with
      | none =>
          simp only [netArgs, hm] at h
          cases hr : netArgs rest with
          | error e => rw [hr] at h; exact absurd h (by simp)
          | ok tail =>
              rcases List.mem_cons.mp hi with h1 | h1
              · subst h1
                rw [hm]
                simp
              · exact ih tail hr i h1
      | some mac =>
          simp only [netArgs, hm] at h
          split at h
          · next hlen =>
              cases hr : netArgs rest with
              | error e => rw [hr] at h; exact absurd h (by simp)
              | ok tail =>
                  rcases List.mem_cons.mp hi with h1 | h1
                  · subst h1
                    rw [hm]
                    intro hx
                    injection hx with hx
                    rw [hx] at hlen
                    simp at hlen
                  · exact ih tail hr i h1
          · exact absurd h (by simp)

theorem startArgs_ok_construct (m : Machine) (ca : List String) (ma : String)
    (na : List String) (hc : cpuArgs m.cpu = .ok ca)
    (hm : memArg m.mem = .ok ma) (hn : netArgs m.interfaces = .ok na) :
    m.startArgs =
      .ok ((if m.kvm then ["-enable-kvm"] else []) ++ ca ++ ["-m", ma] ++ na) := by
  unfold Machine.startArgs
  simp [hc, hm, hn, bind, Except.bind, pure, Except.pure]

/-! ## Claim C7 -/

/-- C7: whenever one of the numeric guards fails — flat CPU count 0, a zero
among sockets/cores/threads in a fully specified custom CPU setup, memory
size 0, a zero slot count or zero maxmem when both are set, or an empty
custom MAC address — `Machine::start` returns an `InvalidArgument` error,
and it does so before any child process is spawned. -/
theorem machine_start_guard_errors :
    ∀ (m : Machine) (os : SpawnOutcome), GuardFails m →
      (m.start os).spawn_attempted = false
      ∧ ∃ msg, (m.start os).result = .error (.InvalidArgument msg) := by
  intro m os hg
  cases hs : m.startArgs with
  | ok args =>
      exfalso
      obtain ⟨ca, ma, na, hc, hm, hn, -⟩ := startArgs_ok_inv m args hs
      rcases hg with h | ⟨hnone, s, co, t, hs', hco, ht, hz⟩ | h |
        ⟨sl, mx, hsl, hmx, hz⟩ | ⟨i, hi, hmac⟩
      · exact (cpuArgs_ok_guards m.cpu ca hc).1 h
      · have := (cpuArgs_ok_guards m.cpu ca hc).2 s co t hnone hs' hco ht
        omega
      · have := (memArg_ok_guards m.mem ma hm).1
        omega
      · have := (memArg_ok_guards m.mem ma hm).2 sl mx hsl hmx
        omega
      · exact netArgs_ok_guards m.interfaces na hn i hi hmac
  | error e =>
      have hshape : ∃ msg, e = .InvalidArgument msg := by
        rcases startArgs_error_inv m e hs with h | h | h
        · exact cpuArgs_error_shape _ _ h
        · exact memArg_error_shape _ _ h
        · exact netArgs_error_shape _ _ h
      obtain ⟨msg, rfl⟩ := hshape
      constructor
      · simp [Machine.start, hs]
      · exact ⟨msg, by simp [Machine.start, hs]⟩

/-- C7, witness: the theorem applied to a machine whose flat CPU count is
zero. -/
theorem machine_start_guard_errors_witness :
    ((Machine.new (CpuSetup.new 0) (MemorySetup.new 512) false).start
        .stillRunning).spawn_attempted = false
    ∧ ∃ msg, ((Machine.new (CpuSetup.new 0) (MemorySetup.new 512) false).start
        .stillRunning).result = .error (.InvalidArgument msg) :=
  machine_start_guard_errors (Machine.new (CpuSetup.new 0)
    (MemorySetup.new 512) false) .stillRunning (Or.inl rfl)

/-! ## Claim C8 -/

/-- C8: when argument assembly succeeds, `Machine::start` attempts the
spawn, sleeps, and polls once: a child still running yields
`Ok(MachineStatus { running: true })`; a child that already exited yields
`Error::Runtime` carrying `"QEMU exited: "` plus the captured stderr text,
or the generic `"QEMU exited unexpectedly"` when the stderr read failed; a
failed spawn yields `Error::Io` wrapping the OS error. -/
theorem machine_start_liveness :
    ∀ (m : Machine) (args : List String), m.startArgs = .ok args →
      m.start .stillRunning = ⟨true, .ok ⟨true⟩⟩
    ∧ (∀ out, m.start (.exited (some out)) =
        ⟨true, .error (.Runtime ("QEMU exited: " ++ out))⟩)
    ∧ m.start (.exited none) =
        ⟨true, .error (.Runtime "QEMU exited unexpectedly")⟩
    ∧ (∀ err, m.start (.spawnFail err) = ⟨true, .error (.Io err)⟩) := by
  intro m args h
  refine ⟨?_, fun out => ?_, ?_, fun err => ?_⟩ <;> simp [Machine.start, h]

/-- C8, witness: the theorem applied to a machine with valid CPU and memory
settings, at the still-running and exited-with-output outcomes. -/
theorem machine_start_liveness_witness :
    (Machine.new (CpuSetup.new 1) (MemorySetup.new 512) false).start
        .stillRunning = ⟨true, .ok ⟨true⟩⟩
    ∧ (Machine.new (CpuSetup.new 1) (MemorySetup.new 512) false).start
        (.exited (some "boom")) =
        ⟨true, .error (.Runtime "QEMU exited: boom")⟩ :=
  ⟨(machine_start_liveness (Machine.new (CpuSetup.new 1) (MemorySetup.new 512)
      false) ["-smp", "1", "-m", "512"] rfl).1,
    (machine_start_liveness (Machine.new (CpuSetup.new 1) (MemorySetup.new 512)
      false) ["-smp", "1", "-m", "512"] rfl).2.1 "boom"⟩

/-! ## Claim C10 -/

/-- C10: a machine started with `use_kvm = true` passes `-enable-kvm` as
the very first argument after the program name — before all CPU, memory and
network arguments — and with `use_kvm = false` that flag appears nowhere in
the spawned argv; the rest of the argv is unchanged between the two. -/
theorem machine_start_kvm_flag :
    ∀ (cpu : CpuSetup) (mem : MemorySetup) (drives : List Drive)
      (ifaces : List TapInterface) (rest : List String),
      Machine.startArgv ⟨false, cpu, mem, drives, ifaces⟩ =
          .ok ("qemu-system-x86_64" :: rest) →
        Machine.startArgv ⟨true, cpu, mem, drives, ifaces⟩ =
          .ok ("qemu-system-x86_64" :: "-enable-kvm" :: rest)
        ∧ "-enable-kvm" ∉ "qemu-system-x86_64" :: rest := by
  intro cpu mem drives ifaces rest h
  have hargs : (Machine.mk false cpu mem drives ifaces).startArgs = .ok rest := by
    unfold Machine.startArgv at h
    cases hs : (Machine.mk false cpu mem drives ifaces).startArgs with
    | error e => rw [hs] at h; exact absurd h (by simp [Except.map])
    | ok args =>
        rw [hs] at h
        simp only [Except.map, Except.ok.injEq, List.cons.injEq, true_and] at h
        rw [h]
  obtain ⟨ca, ma, na, hc, hm, hn, hrest⟩ := startArgs_ok_inv _ rest hargs
  simp only [if_neg Bool.false_ne_true, List.nil_append] at hrest
  constructor
  · have hT := startArgs_ok_construct (Machine.mk true cpu mem drives ifaces)
      ca ma na hc hm hn
    unfold Machine.startArgv
    rw [hT]
    simp only [if_pos rfl, Except.map]
    rw [hrest]
    rfl
  · intro hmem
    rcases List.mem_cons.mp hmem with h1 | h1
    · exact absurd h1 (by decide)
    · rw [hrest] at h1
      rcases List.mem_append.mp h1 with h2 | h2
      · rcases List.mem_append.mp h2 with h3 | h3
        · exact cpuArgs_ok_no_flag _ ca hc h3
        · rcases List.mem_cons.mp h3 with h4 | h4
          · exact absurd h4 (by decide)
          · rcases List.mem_cons.mp h4 with h5 | h5
            · exact memArg_ok_ne_flag _ ma hm h5.symm
            · cases h5
      · exact netArgs_ok_no_flag _ na hn h2

/-- C10, witness: the theorem applied to a plain machine with one CPU and
512 MiB of memory. -/
theorem machine_start_kvm_flag_witness :
    Machine.startArgv ⟨true, CpuSetup.new 1, MemorySetup.new 512, [], []⟩ =
      .ok ["qemu-system-x86_64", "-enable-kvm", "-smp", "1", "-m", "512"]
    ∧ "-enable-kvm" ∉ ["qemu-system-x86_64", "-smp", "1", "-m", "512"] :=
  machine_start_kvm_flag (CpuSetup.new 1) (MemorySetup.new 512) [] []
    ["-smp", "1", "-m", "512"] rfl

/-! ## Claim C1 -/

/-- C1, code evaluation: `Builder::start` constructs the command with
`Command::new(self.executable)` and never adds `self.params` to it, so even
after a fragment is appended the spawned argv is the bare executable — the
accumulated tokens are dropped, contradicting the claim that the argv is
the executable followed by all accumulated tokens. -/
theorem builder_start_drops_params :
    Builder.new envQemu "qemu-system-x86_64" = .ok ⟨"qemu-system-x86_64", []⟩
  ∧ ((Builder.mk "qemu-system-x86_64" []).set [("-display", some "sdl")]).params
      = [("-display", some "sdl")]
  ∧ ((Builder.mk "qemu-system-x86_64" []).set
      [("-display", some "sdl")]).spawnArgv = ["qemu-system-x86_64"]
  ∧ "-display" ∉ ((Builder.mk "qemu-system-x86_64" []).set
      [("-display", some "sdl")]).spawnArgv := by
  refine ⟨rfl, rfl, rfl, by decide⟩

/-! ## Claim C2 -/

/-- C2, code evaluation: `Machine::start` renders network interfaces
(`-netdev tap,id=<name>,ifname=<name>` then `-device virtio-net,...`) but
never reads `self.drives`: for a machine with an attached CD-ROM drive on
`disk.img` and one interface, the assembled argv is exactly the list below,
and no token of it so much as mentions the drive's file path or media type,
contradicting the claim that each attached drive contributes a fragment. -/
theorem machine_start_ignores_drives :
    machineWithDrive.drives = [Drive.new .CDRom "disk.img"]
  ∧ machineWithDrive.startArgv = .ok ["qemu-system-x86_64", "-smp", "1",
      "-m", "512", "-netdev", "tap,id=tap0,ifname=tap0", "-device",
      "virtio-net,netdev=tap0"]
  ∧ (["qemu-system-x86_64", "-smp", "1", "-m", "512", "-netdev",
      "tap,id=tap0,ifname=tap0", "-device", "virtio-net,netdev=tap0"].all
        (fun t => !(strContains t "disk.img") && !(strContains t "cdrom")))
      = true := by
  refine ⟨rfl, rfl, by decide⟩

/-! ## Claim C9 -/

/-- C9: `Image::write` invokes the image tool with
`create -f <format> <path> <size>` and maps the outcome: exit status 0 to
`Ok`, any non-zero exit to `Error::Other` carrying the captured standard
output, and an OS-level spawn failure to `Error::Io`; the result is `Ok`
exactly when the tool exited with status 0. -/
theorem image_write_spec :
    ∀ (img : Image) (out : ImgOutcome),
      img.writeArgv = ["qemu-img", "create", "-f", img.format.render,
        img.path, toString img.size]
    ∧ (∀ s, Image.write img (.ran 0 s) = .ok ())
    ∧ (∀ code s, code ≠ 0 → Image.write img (.ran code s) = .error (.Other s))
    ∧ (∀ e, Image.write img (.spawnFail e) = .error (.Io e))
    ∧ (Image.write img out = .ok () ↔ ∃ s, out = .ran 0 s) := by
  intro img out
  refine ⟨rfl, fun s => rfl, ?_, fun e => rfl, ?_⟩
  · intro code s hcode
    simp [Image.write, hcode]
  · cases out with
    | spawnFail e => simp [Image.write]
    | ran code s =>
        by_cases hcode : code = 0
        · subst hcode
          simp [Image.write]
        · simp [Image.write, hcode]

/-- C9, witness: the theorem applied to a concrete image and a non-zero
exit with captured output `boom`. -/
theorem image_write_spec_witness :
    Image.write (Image.new "/tmp/disk.img" .QCow2 1024) (.ran 2 "boom") =
      .error (.Other "boom") :=
  (image_write_spec (Image.new "/tmp/disk.img" .QCow2 1024)
    (.ran 2 "boom")).2.2.1 2 "boom" (by decide)

end Qemu
